import Mathlib

/-!
Formal model of the travel-record store (`src/store/travelStore.ts`, the
zustand store with undo/redo history) together with the import gateway
(`src/lib/dataExportImport.ts`).

Modelling conventions:
* JS numbers that hold decimal degrees or preference scalars are modelled
  as `Rat`; all coordinate arithmetic in the source is exact decimal
  arithmetic at the precision used here.
* `Math.abs` is modelled by the sign-test definition `ratAbs`.
* JS exceptions thrown by `addCity` are modelled with `Except`: a thrown
  error escapes before zustand's `set` runs, so the store state is the
  unchanged input state.
* `Date.now()` is an ambient clock; every committing operation takes the
  current clock value `now` as an explicit argument.
* `structuredClone` and the JSON deep-clone fallback are the identity on
  immutable values, so `deepClone` is the identity here.
* Untyped JSON fields inspected with `Array.isArray` are modelled by
  `JsonField`: a field is missing, present but not an array, or an array
  of well-typed elements.
-/

/-- `type` field of a City: `'visited' | 'lived'`. -/
inductive CityType where
  | visited
  | lived
deriving DecidableEq

/-- City record (`src/types/city` as used by the store and its tests). -/
structure City where
  id : String
  name : String
  country : String
  /-- `[lat, lng]` pair. -/
  coordinates : ℚ × ℚ
  type : CityType
  lastVisited : String
  dateAdded : String
deriving DecidableEq

/-- Trip record (`src/types/trip.ts`): `dates` is the optional
positionally-aligned date list (the spec calls it `visitDates`),
`dateCreated` an optional alternative to `createdAt`. -/
structure Trip where
  id : String
  name : String
  cityIds : List String
  dates : Option (List String)
  color : String
  createdAt : String
  dateCreated : Option String
deriving DecidableEq

/-- `defaultView: '2d' | '3d'`. -/
inductive ViewMode where
  | twoD
  | threeD
deriving DecidableEq

/-- `theme: 'dark' | 'light' | 'satellite' | 'minimal'`. -/
inductive Theme where
  | dark
  | light
  | satellite
  | minimal
deriving DecidableEq

/-- `globeStyle?: 'blue-marble' | 'topographic' | 'vector' | 'satellite' | 'night'`. -/
inductive GlobeStyle where
  | blueMarble
  | topographic
  | vector
  | satellite
  | night
deriving DecidableEq

/-- Preferences record (`src/types/preferences.ts`). -/
structure Preferences where
  defaultView : ViewMode
  theme : Theme
  globeStyle : Option GlobeStyle
  animationSpeed : ℚ
  searchDebounceMs : ℚ
  selectedTripId : Option String
deriving DecidableEq

/-- `Partial<Preferences>`: each field optionally present. -/
structure PartialPreferences where
  defaultView : Option ViewMode := none
  theme : Option Theme := none
  globeStyle : Option (Option GlobeStyle) := none
  animationSpeed : Option ℚ := none
  searchDebounceMs : Option ℚ := none
  selectedTripId : Option (Option String) := none
deriving DecidableEq

/-- `Partial<City>`: each field optionally present. -/
structure PartialCity where
  id : Option String := none
  name : Option String := none
  country : Option String := none
  coordinates : Option (ℚ × ℚ) := none
  type : Option CityType := none
  lastVisited : Option String := none
  dateAdded : Option String := none
deriving DecidableEq

/-- `Partial<Trip>`: each field optionally present. -/
structure PartialTrip where
  id : Option String := none
  name : Option String := none
  cityIds : Option (List String) := none
  dates : Option (Option (List String)) := none
  color : Option String := none
  createdAt : Option String := none
  dateCreated : Option (Option String) := none
deriving DecidableEq

/-- JS object spread `{ ...prefs, ...partial }` on Preferences. -/
def mergePreferences (p : Preferences) (u : PartialPreferences) : Preferences where
  defaultView := u.defaultView.getD p.defaultView
  theme := u.theme.getD p.theme
  globeStyle := u.globeStyle.getD p.globeStyle
  animationSpeed := u.animationSpeed.getD p.animationSpeed
  searchDebounceMs := u.searchDebounceMs.getD p.searchDebounceMs
  selectedTripId := u.selectedTripId.getD p.selectedTripId

/-- JS object spread `{ ...city, ...updates }`. -/
def mergeCity (c : City) (u : PartialCity) : City where
  id := u.id.getD c.id
  name := u.name.getD c.name
  country := u.country.getD c.country
  coordinates := u.coordinates.getD c.coordinates
  type := u.type.getD c.type
  lastVisited := u.lastVisited.getD c.lastVisited
  dateAdded := u.dateAdded.getD c.dateAdded

/-- JS object spread `{ ...trip, ...updates }`. -/
def mergeTrip (t : Trip) (u : PartialTrip) : Trip where
  id := u.id.getD t.id
  name := u.name.getD t.name
  cityIds := u.cityIds.getD t.cityIds
  dates := u.dates.getD t.dates
  color := u.color.getD t.color
  createdAt := u.createdAt.getD t.createdAt
  dateCreated := u.dateCreated.getD t.dateCreated

/-- `defaultPreferences` from `travelStore.ts`. -/
def defaultPreferences : Preferences where
  defaultView := ViewMode.threeD
  theme := Theme.dark
  globeStyle := some GlobeStyle.blueMarble
  animationSpeed := 1
  searchDebounceMs := 50
  selectedTripId := none

/-- `Math.abs` on the exact rational model of a JS number. -/
def ratAbs (x : ℚ) : ℚ := if x < 0 then -x else x

/-- The boolean duplicate test used by `addCity`'s `find` callback:
`Math.abs(c.coordinates[0] - city.coordinates[0]) < 0.01 &&
 Math.abs(c.coordinates[1] - city.coordinates[1]) < 0.01`. -/
def isDuplicateOf (c city : City) : Bool :=
  decide (ratAbs (c.coordinates.1 - city.coordinates.1) < 1/100) &&
  decide (ratAbs (c.coordinates.2 - city.coordinates.2) < 1/100)

/-- `HistoryState` snapshot: deep copies of the collections plus the
`Date.now()` capture timestamp. -/
structure HistoryState where
  cities : List City
  trips : List Trip
  timestamp : ℕ
deriving DecidableEq

/-- `createHistorySnapshot`: `deepClone` is the identity on values. -/
def createHistorySnapshot (cities : List City) (trips : List Trip)
    (now : ℕ) : HistoryState where
  cities := cities
  trips := trips
  timestamp := now

/-- The `{ history, historyIndex }` object returned by `addToHistory`. -/
structure HistoryUpdate where
  history : List HistoryState
  historyIndex : ℕ
deriving DecidableEq

/-- The complete zustand store state of `travelStore.ts`. -/
structure TravelState where
  cities : List City
  trips : List Trip
  preferences : Preferences
  history : List HistoryState
  historyIndex : ℕ
  maxHistorySize : ℕ
deriving DecidableEq

/-- `addToHistory(state, cities, trips)`: truncate after the cursor
(`slice(0, historyIndex + 1)`), push the new snapshot, and if the length
now exceeds `maxHistorySize`, `shift()` the oldest entry and point the
cursor at the last element. -/
def addToHistory (state : TravelState) (cities : List City)
    (trips : List Trip) (now : ℕ) : HistoryUpdate :=
  let newHistory := state.history.take (state.historyIndex + 1) ++
    [createHistorySnapshot cities trips now]
  if newHistory.length > state.maxHistorySize then
    let shifted := newHistory.drop 1
    { history := shifted, historyIndex := shifted.length - 1 }
  else
    { history := newHistory, historyIndex := state.historyIndex + 1 }

/-- The error thrown by `addCity` on a coordinate collision; the source
attaches `duplicateCityId` to the `Error` object. -/
structure DuplicateCityError where
  message : String
  duplicateCityId : String
deriving DecidableEq

/-- `addCity(city)`: find a coordinate duplicate; on a hit throw a
`DuplicateCityError` (the `set` never runs), otherwise append the city
and commit a history snapshot. -/
def addCity (state : TravelState) (city : City) (now : ℕ) :
    Except DuplicateCityError TravelState :=
  match state.cities.find? (fun c => isDuplicateOf c city) with
  | some duplicateCity =>
      Except.error
        { message := "\"" ++ city.name ++ "\" is already in your list as \"" ++
            duplicateCity.name ++ "\""
          duplicateCityId := duplicateCity.id }
  | none =>
      let newCities := state.cities ++ [city]
      let historyUpdate := addToHistory state newCities state.trips now
      Except.ok
        { state with
            cities := newCities
            history := historyUpdate.history
            historyIndex := historyUpdate.historyIndex }

/-- `updateCity(id, updates)`: shallow-merge onto the matching city. -/
def updateCity (state : TravelState) (id : String) (updates : PartialCity)
    (now : ℕ) : TravelState :=
  let newCities := state.cities.map
    (fun city => if city.id = id then mergeCity city updates else city)
  let historyUpdate := addToHistory state newCities state.trips now
  { state with
      cities := newCities
      history := historyUpdate.history
      historyIndex := historyUpdate.historyIndex }

/-- `deleteCity(id)`: drop the city and filter its id out of every trip's
`cityIds`; commit one combined snapshot. -/
def deleteCity (state : TravelState) (id : String) (now : ℕ) : TravelState :=
  let newCities := state.cities.filter (fun city => city.id ≠ id)
  let newTrips := state.trips.map
    (fun trip =>
      { trip with cityIds := trip.cityIds.filter (fun cityId => cityId ≠ id) })
  let historyUpdate := addToHistory state newCities newTrips now
  { state with
      cities := newCities
      trips := newTrips
      history := historyUpdate.history
      historyIndex := historyUpdate.historyIndex }

/-- `addTrip(trip)`. -/
def addTrip (state : TravelState) (trip : Trip) (now : ℕ) : TravelState :=
  let newTrips := state.trips ++ [trip]
  let historyUpdate := addToHistory state state.cities newTrips now
  { state with
      trips := newTrips
      history := historyUpdate.history
      historyIndex := historyUpdate.historyIndex }

/-- `updateTrip(id, updates)`. -/
def updateTrip (state : TravelState) (id : String) (updates : PartialTrip)
    (now : ℕ) : TravelState :=
  let newTrips := state.trips.map
    (fun trip => if trip.id = id then mergeTrip trip updates else trip)
  let historyUpdate := addToHistory state state.cities newTrips now
  { state with
      trips := newTrips
      history := historyUpdate.history
      historyIndex := historyUpdate.historyIndex }

/-- `deleteTrip(id)`. -/
def deleteTrip (state : TravelState) (id : String) (now : ℕ) : TravelState :=
  let newTrips := state.trips.filter (fun trip => trip.id ≠ id)
  let historyUpdate := addToHistory state state.cities newTrips now
  { state with
      trips := newTrips
      history := historyUpdate.history
      historyIndex := historyUpdate.historyIndex }

/-- `updatePreferences(prefs)`: spread-merge, no history commit. -/
def updatePreferences (state : TravelState) (prefs : PartialPreferences) :
    TravelState :=
  { state with preferences := mergePreferences state.preferences prefs }

/-- `undo()`: if the cursor is positive, load the previous snapshot.
The `none` branch is unreachable for well-formed states (the cursor is
always inside the history in states the app constructs). -/
def undo (state : TravelState) : TravelState :=
  if 0 < state.historyIndex then
    match state.history[state.historyIndex - 1]? with
    | some previousState =>
        { state with
            cities := previousState.cities
            trips := previousState.trips
            historyIndex := state.historyIndex - 1 }
    | none => state
  else state

/-- `redo()`: if the cursor is before the last snapshot, load the next
one. The `none` branch is unreachable under the guard. -/
def redo (state : TravelState) : TravelState :=
  if state.historyIndex < state.history.length - 1 then
    match state.history[state.historyIndex + 1]? with
    | some nextState =>
        { state with
            cities := nextState.cities
            trips := nextState.trips
            historyIndex := state.historyIndex + 1 }
    | none => state
  else state

/-- `canUndo()`. -/
def canUndo (state : TravelState) : Bool :=
  decide (0 < state.historyIndex)

/-- `canRedo()`. -/
def canRedo (state : TravelState) : Bool :=
  decide (state.historyIndex < state.history.length - 1)

/-- An untyped JSON field as dispatched on by `Array.isArray`. -/
inductive JsonField (α : Type) where
  | missing
  | notArray
  | arr (xs : List α)
deriving DecidableEq

/-- The `data` argument of `importData` / the object inspected by
`importFromJson`: `cities` and `trips` are untyped fields, `preferences`
is either absent/falsy (`none`) or a partial record. -/
structure ImportPayload where
  cities : JsonField City
  trips : JsonField Trip
  preferences : Option PartialPreferences
deriving DecidableEq

/-- `importData(data)`: `Array.isArray` fallbacks keep the current
collections; preferences merge shallowly when present; history is reset
to a single snapshot at cursor 0. -/
def importData (state : TravelState) (data : ImportPayload) (now : ℕ) :
    TravelState :=
  let newCities :=
    match data.cities with
    | JsonField.arr xs => xs
    | _ => state.cities
  let newTrips :=
    match data.trips with
    | JsonField.arr xs => xs
    | _ => state.trips
  let newPreferences :=
    match data.preferences with
    | some p => mergePreferences state.preferences p
    | none => state.preferences
  { state with
      cities := newCities
      trips := newTrips
      preferences := newPreferences
      history := [createHistorySnapshot newCities newTrips now]
      historyIndex := 0 }

/-- A parsed JSON document as inspected by `importFromJson`: either not
an object (`!data || typeof data !== 'object'`) or an object whose
relevant fields are an `ImportPayload`. -/
inductive ImportJson where
  | notObject
  | obj (payload : ImportPayload)

/-- `importFromJson` (`src/lib/dataExportImport.ts`): throws on a
non-object document, otherwise substitutes `[]` for a missing or
non-array `cities`/`trips` field and `{}` for falsy `preferences`. -/
def importFromJson (data : ImportJson) : Except String ImportPayload :=
  match data with
  | ImportJson.notObject => Except.error "Invalid JSON format"
  | ImportJson.obj d =>
      Except.ok
        { cities :=
            match d.cities with
            | JsonField.arr xs => JsonField.arr xs
            | _ => JsonField.arr []
          trips :=
            match d.trips with
            | JsonField.arr xs => JsonField.arr xs
            | _ => JsonField.arr []
          preferences := some (d.preferences.getD {}) }

/-- The store state built by the zustand initializer: empty collections,
default preferences, one initial snapshot, cursor 0, cap 50. -/
def initialState (t0 : ℕ) : TravelState where
  cities := []
  trips := []
  preferences := defaultPreferences
  history := [createHistorySnapshot [] [] t0]
  historyIndex := 0
  maxHistorySize := 50

/-- One public store command, with the `Date.now()` value observed by the
committing commands. -/
inductive Cmd where
  | addCity (c : City) (now : ℕ)
  | updateCity (id : String) (u : PartialCity) (now : ℕ)
  | deleteCity (id : String) (now : ℕ)
  | addTrip (t : Trip) (now : ℕ)
  | updateTrip (id : String) (u : PartialTrip) (now : ℕ)
  | deleteTrip (id : String) (now : ℕ)
  | updatePreferences (u : PartialPreferences)
  | undo
  | redo
  | importData (d : ImportPayload) (now : ℕ)

/-- Run one command, keeping the thrown error of a duplicate `addCity`
(the only fallible command). -/
def applyCmdE (c : Cmd) (s : TravelState) :
    Except DuplicateCityError TravelState :=
  match c with
  | Cmd.addCity city now => addCity s city now
  | Cmd.updateCity id u now => Except.ok (updateCity s id u now)
  | Cmd.deleteCity id now => Except.ok (deleteCity s id now)
  | Cmd.addTrip t now => Except.ok (addTrip s t now)
  | Cmd.updateTrip id u now => Except.ok (updateTrip s id u now)
  | Cmd.deleteTrip id now => Except.ok (deleteTrip s id now)
  | Cmd.updatePreferences u => Except.ok (updatePreferences s u)
  | Cmd.undo => Except.ok (undo s)
  | Cmd.redo => Except.ok (redo s)
  | Cmd.importData d now => Except.ok (importData s d now)

/-- Run one command as the application observes it: a thrown
`DuplicateCityError` leaves the store state untouched. -/
def applyCmd (c : Cmd) (s : TravelState) : TravelState :=
  match applyCmdE c s with
  | Except.ok s' => s'
  | Except.error _ => s

/-- Run a command list left to right, stopping at the first thrown
error; `.ok` means every command succeeded. -/
def applyCmdList (cs : List Cmd) (s : TravelState) :
    Except DuplicateCityError TravelState :=
  match cs with
  | [] => Except.ok s
  | c :: rest =>
      match applyCmdE c s with
      | Except.ok s' => applyCmdList rest s'
      | Except.error e => Except.error e

/-- The six history-committing mutation commands. -/
def Cmd.isMutating : Cmd → Bool
  | Cmd.addCity _ _ => true
  | Cmd.updateCity _ _ _ => true
  | Cmd.deleteCity _ _ => true
  | Cmd.addTrip _ _ => true
  | Cmd.updateTrip _ _ _ => true
  | Cmd.deleteTrip _ _ => true
  | _ => false

/-- States reachable from the store's initial state by public commands. -/
inductive Reachable : TravelState → Prop where
  | init (t0 : ℕ) : Reachable (initialState t0)
  | step {s : TravelState} (c : Cmd) (h : Reachable s) : Reachable (applyCmd c s)

/-- The state after one successful committing mutation: new collections
plus the `addToHistory` bookkeeping. Each of the six mutating commands
produces exactly this shape. -/
def commitState (s : TravelState) (cities : List City) (trips : List Trip)
    (now : ℕ) : TravelState :=
  { s with
      cities := cities
      trips := trips
      history := (addToHistory s cities trips now).history
      historyIndex := (addToHistory s cities trips now).historyIndex }

/-- The cursor points at a snapshot holding the live collections. -/
def pointsAtLive (s : TravelState) : Prop :=
  ∃ σ, s.history[s.historyIndex]? = some σ ∧
    σ.cities = s.cities ∧ σ.trips = s.trips

/-- Invariant satisfied by every state the application can reach. -/
def StoreInv (s : TravelState) : Prop :=
  s.historyIndex < s.history.length ∧
  s.history.length ≤ s.maxHistorySize ∧
  s.maxHistorySize = 50 ∧
  pointsAtLive s

/-- Concrete city fixture used by witness states. -/
def sampleCity : City where
  id := "c1"
  name := "Alpha"
  country := "Aland"
  coordinates := (0, 0)
  type := CityType.visited
  lastVisited := "2024-01-01"
  dateAdded := "2024-01-02"

/-- Concrete trip fixture used by witness states; its `dates` list is
positionally aligned with its `cityIds`. -/
def sampleTrip : Trip where
  id := "t1"
  name := "Trip One"
  cityIds := ["c1", "c2"]
  dates := some ["d1", "d2"]
  color := "#abc"
  createdAt := "2024-02-01"
  dateCreated := none

/-- Concrete well-formed store state fixture. -/
def sampleState : TravelState where
  cities := [sampleCity]
  trips := [sampleTrip]
  preferences := defaultPreferences
  history := [createHistorySnapshot [sampleCity] [sampleTrip] 0]
  historyIndex := 0
  maxHistorySize := 50

/-- Concrete two-command reachable state. -/
def reachTwoState : TravelState :=
  applyCmd (Cmd.addTrip sampleTrip 3) (applyCmd (Cmd.addCity sampleCity 2)
    (initialState 0))

/-- Malformed payload fixture: `cities` missing, `trips` not an array. -/
def malformedPayload : ImportPayload where
  cities := JsonField.missing
  trips := JsonField.notArray
  preferences := none

/-- Tokyo fixture from the spec's example scenario. -/
def tokyoCity : City where
  id := "tokyo-1"
  name := "Tokyo"
  country := "Japan"
  coordinates := (356762/10000, 1396503/10000)
  type := CityType.visited
  lastVisited := "2024-01-01"
  dateAdded := "2024-01-01"

/-- A candidate within 0.01 degrees of Tokyo on both axes. -/
def nearTokyoCity : City where
  id := "near-1"
  name := "NearTokyo"
  country := "Japan"
  coordinates := (3568/100, 139655/1000)
  type := CityType.visited
  lastVisited := "2024-01-02"
  dateAdded := "2024-01-02"

/-- Store state already holding Tokyo. -/
def tokyoState : TravelState where
  cities := [tokyoCity]
  trips := []
  preferences := defaultPreferences
  history := [createHistorySnapshot [tokyoCity] [] 0]
  historyIndex := 0
  maxHistorySize := 50

/-- Concrete state with a live redo branch: one `addTrip` then `undo`. -/
def redoableState : TravelState :=
  undo (applyCmd (Cmd.addTrip sampleTrip 3) (initialState 0))

/-- Reachable state after 49 `addTrip` commands: its history holds 50
snapshots, so the next commit overflows the cap. -/
def fullHistoryState : TravelState :=
  (applyCmd (Cmd.addTrip sampleTrip 7))^[49] (initialState 0)

/-- Final state of 50 consecutive `addTrip` commands from the initial
state; the 50th commit evicts the initial empty snapshot. -/
def fiftyTripsState : TravelState :=
  (applyCmd (Cmd.addTrip sampleTrip 0))^[50] (initialState 0)

/-- Two-command final state for the amended C3 witness. -/
def twoCmdState : TravelState :=
  applyCmd (Cmd.deleteTrip "t1" 2)
    (applyCmd (Cmd.addTrip sampleTrip 1) (initialState 0))

lemma length_take_succ (s : TravelState)
    (h : s.historyIndex < s.history.length) :
    (s.history.take (s.historyIndex + 1)).length = s.historyIndex + 1 := by
  simp [List.length_take, Nat.min_eq_left (Nat.succ_le_of_lt h)]

lemma addToHistory_no_evict (s : TravelState) (cities : List City)
    (trips : List Trip) (now : ℕ)
    (h : s.historyIndex < s.history.length)
    (hcap : s.historyIndex + 2 ≤ s.maxHistorySize) :
    addToHistory s cities trips now =
      { history := s.history.take (s.historyIndex + 1) ++
          [createHistorySnapshot cities trips now]
        historyIndex := s.historyIndex + 1 } := by
  have hlen : (s.history.take (s.historyIndex + 1) ++
      [createHistorySnapshot cities trips now]).length = s.historyIndex + 2 := by
    simp [length_take_succ s h]
  simp only [addToHistory, hlen]
  rw [if_neg (by omega)]

lemma addToHistory_evict (s : TravelState) (cities : List City)
    (trips : List Trip) (now : ℕ)
    (h : s.historyIndex < s.history.length)
    (hcap : s.maxHistorySize < s.historyIndex + 2) :
    addToHistory s cities trips now =
      { history := (s.history.take (s.historyIndex + 1)).drop 1 ++
          [createHistorySnapshot cities trips now]
        historyIndex := s.historyIndex } := by
  have htake : (s.history.take (s.historyIndex + 1)).length =
      s.historyIndex + 1 := length_take_succ s h
  have hlen : (s.history.take (s.historyIndex + 1) ++
      [createHistorySnapshot cities trips now]).length = s.historyIndex + 2 := by
    simp [htake]
  have hdrop : (s.history.take (s.historyIndex + 1) ++
        [createHistorySnapshot cities trips now]).drop 1 =
      (s.history.take (s.historyIndex + 1)).drop 1 ++
        [createHistorySnapshot cities trips now] := by
    rw [List.drop_append_of_le_length (by omega)]
  have hdroplen : ((s.history.take (s.historyIndex + 1) ++
        [createHistorySnapshot cities trips now]).drop 1).length =
      s.historyIndex + 1 := by
    simp [hlen]
  simp only [addToHistory, hlen]
  rw [if_pos (by omega)]
  rw [hdrop]
  have hfl : (List.drop 1 (s.history.take (s.historyIndex + 1)) ++
      [createHistorySnapshot cities trips now]).length = s.historyIndex + 1 := by
    simp [htake]
  rw [hfl]
  rfl

lemma commitState_cities (s : TravelState) (cities : List City)
    (trips : List Trip) (now : ℕ) :
    (commitState s cities trips now).cities = cities ∧
    (commitState s cities trips now).trips = trips ∧
    (commitState s cities trips now).preferences = s.preferences ∧
    (commitState s cities trips now).maxHistorySize = s.maxHistorySize :=
  ⟨rfl, rfl, rfl, rfl⟩

lemma commitState_cursor (s : TravelState) (cities : List City)
    (trips : List Trip) (now : ℕ)
    (h : s.historyIndex < s.history.length) :
    (commitState s cities trips now).historyIndex + 1 =
      (commitState s cities trips now).history.length ∧
    (commitState s cities trips now).history[
        (commitState s cities trips now).historyIndex]? =
      some (createHistorySnapshot cities trips now) := by
  by_cases hc : s.historyIndex + 2 ≤ s.maxHistorySize
  · rw [commitState, addToHistory_no_evict s cities trips now h hc]
    have htake : (s.history.take (s.historyIndex + 1)).length =
        s.historyIndex + 1 := length_take_succ s h
    constructor
    · simp [htake]
    · show (s.history.take (s.historyIndex + 1) ++
        [createHistorySnapshot cities trips now])[s.historyIndex + 1]? = _
      rw [List.getElem?_append, if_neg (by omega), htake]
      simp
  · rw [commitState, addToHistory_evict s cities trips now h (by omega)]
    have htake : (s.history.take (s.historyIndex + 1)).length =
        s.historyIndex + 1 := length_take_succ s h
    have hdl : ((s.history.take (s.historyIndex + 1)).drop 1).length =
        s.historyIndex := by simp [htake]
    constructor
    · show s.historyIndex + 1 =
        ((s.history.take (s.historyIndex + 1)).drop 1 ++
          [createHistorySnapshot cities trips now]).length
      rw [List.length_append, hdl]
      rfl
    · show ((s.history.take (s.historyIndex + 1)).drop 1 ++
        [createHistorySnapshot cities trips now])[s.historyIndex]? = _
      rw [List.getElem?_append, if_neg (by omega), hdl]
      simp

lemma commitState_len_le (s : TravelState) (cities : List City)
    (trips : List Trip) (now : ℕ)
    (h : s.historyIndex < s.history.length)
    (hlen : s.history.length ≤ s.maxHistorySize) :
    (commitState s cities trips now).history.length ≤ s.maxHistorySize := by
  have htake : (s.history.take (s.historyIndex + 1)).length =
      s.historyIndex + 1 := length_take_succ s h
  by_cases hc : s.historyIndex + 2 ≤ s.maxHistorySize
  · rw [commitState, addToHistory_no_evict s cities trips now h hc]
    simp [htake]
    omega
  · rw [commitState, addToHistory_evict s cities trips now h (by omega)]
    simp [htake]
    omega

lemma commitState_pointsAtLive (s : TravelState) (cities : List City)
    (trips : List Trip) (now : ℕ)
    (h : s.historyIndex < s.history.length) :
    pointsAtLive (commitState s cities trips now) := by
  refine ⟨createHistorySnapshot cities trips now,
    (commitState_cursor s cities trips now h).2, rfl, rfl⟩

lemma commitState_idx_lt (s : TravelState) (cities : List City)
    (trips : List Trip) (now : ℕ)
    (h : s.historyIndex < s.history.length) :
    (commitState s cities trips now).historyIndex <
      (commitState s cities trips now).history.length := by
  have := (commitState_cursor s cities trips now h).1
  omega

lemma applyCmdE_mut_commit (c : Cmd) (s s' : TravelState)
    (hm : c.isMutating = true) (hok : applyCmdE c s = Except.ok s') :
    ∃ cities trips now, s' = commitState s cities trips now := by
  cases c with
  | addCity city now =>
      have hok' : addCity s city now = Except.ok s' := hok
      unfold addCity at hok'
      cases hfind : s.cities.find? (fun c => isDuplicateOf c city) with
      | some dup =>
          rw [hfind] at hok'
          exact absurd hok' (by simp)
      | none =>
          rw [hfind] at hok'
          simp only [Except.ok.injEq] at hok'
          exact ⟨s.cities ++ [city], s.trips, now, hok'.symm⟩
  | updateCity id u now =>
      simp only [applyCmdE, Except.ok.injEq] at hok
      exact ⟨_, s.trips, now, hok.symm⟩
  | deleteCity id now =>
      simp only [applyCmdE, Except.ok.injEq] at hok
      exact ⟨_, _, now, hok.symm⟩
  | addTrip t now =>
      simp only [applyCmdE, Except.ok.injEq] at hok
      exact ⟨s.cities, _, now, hok.symm⟩
  | updateTrip id u now =>
      simp only [applyCmdE, Except.ok.injEq] at hok
      exact ⟨s.cities, _, now, hok.symm⟩
  | deleteTrip id now =>
      simp only [applyCmdE, Except.ok.injEq] at hok
      exact ⟨s.cities, _, now, hok.symm⟩
  | updatePreferences u => exact absurd hm (by simp [Cmd.isMutating])
  | undo => exact absurd hm (by simp [Cmd.isMutating])
  | redo => exact absurd hm (by simp [Cmd.isMutating])
  | importData d now => exact absurd hm (by simp [Cmd.isMutating])

lemma undo_eq (s : TravelState) (h : 0 < s.historyIndex) (σ : HistoryState)
    (hσ : s.history[s.historyIndex - 1]? = some σ) :
    undo s = { s with cities := σ.cities, trips := σ.trips,
                      historyIndex := s.historyIndex - 1 } := by
  unfold undo
  rw [if_pos h, hσ]

lemma redo_eq (s : TravelState) (h : s.historyIndex < s.history.length - 1)
    (σ : HistoryState) (hσ : s.history[s.historyIndex + 1]? = some σ) :
    redo s = { s with cities := σ.cities, trips := σ.trips,
                      historyIndex := s.historyIndex + 1 } := by
  unfold redo
  rw [if_pos h, hσ]

lemma undo_iter (n : ℕ) :
    ∀ s : TravelState, s.historyIndex < s.history.length → pointsAtLive s →
    n ≤ s.historyIndex →
    (undo^[n] s).history = s.history ∧
    (undo^[n] s).historyIndex = s.historyIndex - n ∧
    (undo^[n] s).preferences = s.preferences ∧
    (undo^[n] s).maxHistorySize = s.maxHistorySize ∧
    ∃ σ, s.history[s.historyIndex - n]? = some σ ∧
      (undo^[n] s).cities = σ.cities ∧ (undo^[n] s).trips = σ.trips := by
  induction n with
  | zero =>
      intro s _ hlive _
      rw [Function.iterate_zero_apply]
      obtain ⟨σ, hσ, hc, ht⟩ := hlive
      exact ⟨rfl, rfl, rfl, rfl, σ, hσ, hc.symm, ht.symm⟩
  | succ n ih =>
      intro s hlt hlive hn
      have h0 : 0 < s.historyIndex := by omega
      have hpos : s.historyIndex - 1 < s.history.length := by omega
      have hσ' : s.history[s.historyIndex - 1]? =
          some s.history[s.historyIndex - 1] := List.getElem?_eq_getElem hpos
      rw [Function.iterate_succ_apply, undo_eq s h0 _ hσ']
      have hle : n ≤ s.historyIndex - 1 := by omega
      have hres := ih
        { s with cities := s.history[s.historyIndex - 1].cities
                 trips := s.history[s.historyIndex - 1].trips
                 historyIndex := s.historyIndex - 1 }
        hpos ⟨s.history[s.historyIndex - 1], hσ', rfl, rfl⟩ hle
      obtain ⟨h1, h2, h3, h4, σ, hσ, hc, ht⟩ := hres
      have h2' : s.historyIndex - 1 - n = s.historyIndex - (n + 1) := by omega
      refine ⟨h1, ?_, h3, h4, σ, ?_, hc, ht⟩
      · rw [h2]
        exact h2'
      · rw [← h2']
        exact hσ

lemma redo_iter (n : ℕ) :
    ∀ s : TravelState, s.historyIndex + n < s.history.length → pointsAtLive s →
    (redo^[n] s).history = s.history ∧
    (redo^[n] s).historyIndex = s.historyIndex + n ∧
    (redo^[n] s).preferences = s.preferences ∧
    (redo^[n] s).maxHistorySize = s.maxHistorySize ∧
    ∃ σ, s.history[s.historyIndex + n]? = some σ ∧
      (redo^[n] s).cities = σ.cities ∧ (redo^[n] s).trips = σ.trips := by
  induction n with
  | zero =>
      intro s _ hlive
      rw [Function.iterate_zero_apply]
      obtain ⟨σ, hσ, hc, ht⟩ := hlive
      exact ⟨rfl, rfl, rfl, rfl, σ, hσ, hc.symm, ht.symm⟩
  | succ n ih =>
      intro s hlt hlive
      have hg : s.historyIndex < s.history.length - 1 := by omega
      have hpos : s.historyIndex + 1 < s.history.length := by omega
      have hσ' : s.history[s.historyIndex + 1]? =
          some s.history[s.historyIndex + 1] := List.getElem?_eq_getElem hpos
      rw [Function.iterate_succ_apply, redo_eq s hg _ hσ']
      have hlt1 : s.historyIndex + 1 + n < s.history.length := by omega
      have hres := ih
        { s with cities := s.history[s.historyIndex + 1].cities
                 trips := s.history[s.historyIndex + 1].trips
                 historyIndex := s.historyIndex + 1 }
        hlt1 ⟨s.history[s.historyIndex + 1], hσ', rfl, rfl⟩
      obtain ⟨h1, h2, h3, h4, σ, hσ, hc, ht⟩ := hres
      have h2' : s.historyIndex + 1 + n = s.historyIndex + (n + 1) := by omega
      refine ⟨h1, ?_, h3, h4, σ, ?_, hc, ht⟩
      · rw [h2]
        exact h2'
      · rw [← h2']
        exact hσ

lemma commitState_prefix (s : TravelState) (cities : List City)
    (trips : List Trip) (now : ℕ)
    (h : s.historyIndex < s.history.length)
    (hcap : s.historyIndex + 2 ≤ s.maxHistorySize) :
    ∀ j, j ≤ s.historyIndex →
      (commitState s cities trips now).history[j]? = s.history[j]? := by
  intro j hj
  rw [commitState, addToHistory_no_evict s cities trips now h hcap]
  show (s.history.take (s.historyIndex + 1) ++
      [createHistorySnapshot cities trips now])[j]? = s.history[j]?
  have htake : (s.history.take (s.historyIndex + 1)).length =
      s.historyIndex + 1 := length_take_succ s h
  rw [List.getElem?_append, if_pos (by omega)]
  simp only [List.getElem?_take]
  rw [if_pos (by omega)]

lemma applyCmdList_commits (cs : List Cmd) :
    ∀ s s' : TravelState,
    (∀ c ∈ cs, c.isMutating = true) →
    s.historyIndex < s.history.length →
    pointsAtLive s →
    s.historyIndex + 1 + cs.length ≤ s.maxHistorySize →
    applyCmdList cs s = Except.ok s' →
    s'.historyIndex = s.historyIndex + cs.length ∧
    s'.historyIndex < s'.history.length ∧
    pointsAtLive s' ∧
    s'.maxHistorySize = s.maxHistorySize ∧
    (∀ j, j ≤ s.historyIndex → s'.history[j]? = s.history[j]?) := by
  induction cs with
  | nil =>
      intro s s' _ hlt hlive _ hok
      have hss : s = s' := by
        simpa [applyCmdList] using hok
      subst hss
      exact ⟨by simp, hlt, hlive, rfl, fun j _ => rfl⟩
  | cons c rest ih =>
      intro s s' hmut hlt hlive hcap hok
      unfold applyCmdList at hok
      cases hE : applyCmdE c s with
      | error e =>
          rw [hE] at hok
          exact absurd hok (by simp)
      | ok s₁ =>
          rw [hE] at hok
          obtain ⟨ct, tt, n, rfl⟩ :=
            applyCmdE_mut_commit c s s₁ (hmut c (List.mem_cons_self c rest)) hE
          have hcapc : s.historyIndex + 2 ≤ s.maxHistorySize := by
            simp only [List.length_cons] at hcap
            omega
          have hidx1 : (commitState s ct tt n).historyIndex =
              s.historyIndex + 1 := by
            rw [commitState, addToHistory_no_evict s ct tt n hlt hcapc]
          have hlt1 := commitState_idx_lt s ct tt n hlt
          have hlive1 := commitState_pointsAtLive s ct tt n hlt
          have hmax1 : (commitState s ct tt n).maxHistorySize =
              s.maxHistorySize := rfl
          have hcap1 : (commitState s ct tt n).historyIndex + 1 + rest.length ≤
              (commitState s ct tt n).maxHistorySize := by
            rw [hidx1, hmax1]
            simp only [List.length_cons] at hcap
            omega
          obtain ⟨i1, i2, i3, i4, i5⟩ := ih (commitState s ct tt n) s'
            (fun d hd => hmut d (List.mem_cons_of_mem c hd)) hlt1 hlive1 hcap1 hok
          refine ⟨?_, i2, i3, by rw [i4, hmax1], ?_⟩
          · rw [i1, hidx1]
            simp only [List.length_cons]
            omega
          · intro j hj
            have hpre := commitState_prefix s ct tt n hlt hcapc j hj
            have := i5 j (by rw [hidx1]; omega)
            rw [this, hpre]

lemma commitState_storeInv (s : TravelState) (cities : List City)
    (trips : List Trip) (now : ℕ) (h : StoreInv s) :
    StoreInv (commitState s cities trips now) := by
  obtain ⟨hlt, hlen, hmax, _⟩ := h
  refine ⟨commitState_idx_lt s cities trips now hlt, ?_, hmax,
    commitState_pointsAtLive s cities trips now hlt⟩
  exact commitState_len_le s cities trips now hlt hlen

lemma initialState_storeInv (t0 : ℕ) : StoreInv (initialState t0) := by
  refine ⟨by simp [initialState], by simp [initialState], rfl, ?_⟩
  exact ⟨createHistorySnapshot [] [] t0, rfl, rfl, rfl⟩

lemma undo_storeInv (s : TravelState) (h : StoreInv s) : StoreInv (undo s) := by
  obtain ⟨hlt, hlen, hmax, hlive⟩ := h
  unfold undo
  by_cases h0 : 0 < s.historyIndex
  · rw [if_pos h0]
    have hpos : s.historyIndex - 1 < s.history.length := by omega
    rw [List.getElem?_eq_getElem hpos]
    exact ⟨by simpa using hpos, hlen, hmax,
      ⟨s.history[s.historyIndex - 1], List.getElem?_eq_getElem hpos, rfl, rfl⟩⟩
  · rw [if_neg h0]
    exact ⟨hlt, hlen, hmax, hlive⟩

lemma redo_storeInv (s : TravelState) (h : StoreInv s) : StoreInv (redo s) := by
  obtain ⟨hlt, hlen, hmax, hlive⟩ := h
  unfold redo
  by_cases h0 : s.historyIndex < s.history.length - 1
  · rw [if_pos h0]
    have hpos : s.historyIndex + 1 < s.history.length := by omega
    rw [List.getElem?_eq_getElem hpos]
    exact ⟨by simpa using hpos, hlen, hmax,
      ⟨s.history[s.historyIndex + 1], List.getElem?_eq_getElem hpos, rfl, rfl⟩⟩
  · rw [if_neg h0]
    exact ⟨hlt, hlen, hmax, hlive⟩

lemma importData_storeInv (s : TravelState) (d : ImportPayload) (now : ℕ)
    (h : StoreInv s) : StoreInv (importData s d now) := by
  obtain ⟨_, _, hmax, _⟩ := h
  refine ⟨by simp [importData], ?_, hmax, ?_⟩
  · show 1 ≤ s.maxHistorySize
    omega
  · exact ⟨_, rfl, rfl, rfl⟩

lemma reachable_storeInv {s : TravelState} (h : Reachable s) : StoreInv s := by
  induction h with
  | init t0 => exact initialState_storeInv t0
  | step c _ ih =>
      rename_i t _
      cases c with
      | addCity city now =>
          show StoreInv (applyCmd (Cmd.addCity city now) t)
          unfold applyCmd
          cases hE : applyCmdE (Cmd.addCity city now) t with
          | error e => exact ih
          | ok t' =>
              obtain ⟨ct, tt, n, rfl⟩ :=
                applyCmdE_mut_commit (Cmd.addCity city now) t t'
                  (by simp [Cmd.isMutating]) hE
              exact commitState_storeInv t ct tt n ih
      | updateCity id u now => exact commitState_storeInv t _ t.trips now ih
      | deleteCity id now => exact commitState_storeInv t _ _ now ih
      | addTrip tr now => exact commitState_storeInv t t.cities _ now ih
      | updateTrip id u now => exact commitState_storeInv t t.cities _ now ih
      | deleteTrip id now => exact commitState_storeInv t t.cities _ now ih
      | updatePreferences u =>
          obtain ⟨hlt, hlen, hmax, hlive⟩ := ih
          exact ⟨hlt, hlen, hmax, hlive⟩
      | undo => exact undo_storeInv t ih
      | redo => exact redo_storeInv t ih
      | importData d now => exact importData_storeInv t d now ih

/-- C9: `updatePreferences` shallow-merges the partial input into the
preferences and leaves cities, trips, the history sequence and the
history cursor unchanged, so no snapshot is committed. -/
theorem updatePreferences_frame (s : TravelState) (u : PartialPreferences) :
    (updatePreferences s u).cities = s.cities ∧
    (updatePreferences s u).trips = s.trips ∧
    (updatePreferences s u).history = s.history ∧
    (updatePreferences s u).historyIndex = s.historyIndex ∧
    (updatePreferences s u).preferences = mergePreferences s.preferences u :=
  ⟨rfl, rfl, rfl, rfl, rfl⟩

/-- C6: for every store state and every import payload, `importData`
resets the history to exactly one snapshot of the resulting collections
with the cursor at index 0, so `canUndo` and `canRedo` are both false. -/
theorem importData_resets_history (s : TravelState) (d : ImportPayload)
    (now : ℕ) :
    (importData s d now).history =
      [createHistorySnapshot (importData s d now).cities
        (importData s d now).trips now] ∧
    (importData s d now).historyIndex = 0 ∧
    canUndo (importData s d now) = false ∧
    canRedo (importData s d now) = false :=
  ⟨rfl, rfl, rfl, rfl⟩

/-- C2: after `deleteCity id`, no trip references `id` in its `cityIds`,
the city itself is gone from the cities collection, and the city removal
and the trip cascade are recorded together in the single snapshot the
cursor now points at. -/
theorem deleteCity_cascade_atomic (s : TravelState) (id : String) (now : ℕ)
    (hwf : s.historyIndex < s.history.length) :
    (∀ t ∈ (deleteCity s id now).trips, id ∉ t.cityIds) ∧
    (∀ c ∈ (deleteCity s id now).cities, c.id ≠ id) ∧
    (deleteCity s id now).historyIndex + 1 =
      (deleteCity s id now).history.length ∧
    (deleteCity s id now).history[(deleteCity s id now).historyIndex]? =
      some (createHistorySnapshot (deleteCity s id now).cities
        (deleteCity s id now).trips now) := by
  refine ⟨?_, ?_, ?_, ?_⟩
  · intro t ht hmem
    have ht' : t ∈ s.trips.map (fun trip =>
        { trip with cityIds := trip.cityIds.filter (fun cityId => cityId ≠ id) }) := ht
    obtain ⟨t₀, _, rfl⟩ := List.mem_map.mp ht'
    have := (List.mem_filter.mp hmem).2
    simp at this
  · intro c hc
    have hc' : c ∈ s.cities.filter (fun city => city.id ≠ id) := hc
    have := (List.mem_filter.mp hc').2
    simpa using this
  · exact (commitState_cursor s
      (s.cities.filter (fun city => city.id ≠ id))
      (s.trips.map (fun trip =>
        { trip with cityIds := trip.cityIds.filter (fun cityId => cityId ≠ id) }))
      now hwf).1
  · exact (commitState_cursor s
      (s.cities.filter (fun city => city.id ≠ id))
      (s.trips.map (fun trip =>
        { trip with cityIds := trip.cityIds.filter (fun cityId => cityId ≠ id) }))
      now hwf).2

/-- Witness for C2 at a concrete state. -/
theorem deleteCity_cascade_atomic_witness :
    (∀ t ∈ (deleteCity sampleState "c1" 5).trips, "c1" ∉ t.cityIds) ∧
    (∀ c ∈ (deleteCity sampleState "c1" 5).cities, c.id ≠ "c1") ∧
    (deleteCity sampleState "c1" 5).historyIndex + 1 =
      (deleteCity sampleState "c1" 5).history.length ∧
    (deleteCity sampleState "c1" 5).history[
        (deleteCity sampleState "c1" 5).historyIndex]? =
      some (createHistorySnapshot (deleteCity sampleState "c1" 5).cities
        (deleteCity sampleState "c1" 5).trips 5) :=
  deleteCity_cascade_atomic sampleState "c1" 5 (by decide)

/-- C10: in every reachable store state the snapshot at the cursor holds
collections value-equal to the live `cities`/`trips`. -/
theorem reachable_cursor_points_at_live (s : TravelState) (h : Reachable s) :
    ∃ σ, s.history[s.historyIndex]? = some σ ∧
      σ.cities = s.cities ∧ σ.trips = s.trips :=
  (reachable_storeInv h).2.2.2

/-- Witness for C10 at a concrete reachable state. -/
theorem reachable_cursor_points_at_live_witness :
    ∃ σ, reachTwoState.history[reachTwoState.historyIndex]? = some σ ∧
      σ.cities = reachTwoState.cities ∧ σ.trips = reachTwoState.trips :=
  reachable_cursor_points_at_live reachTwoState
    (Reachable.step _ (Reachable.step _ (Reachable.init 0)))

/-- C8 counterexample: `sampleTrip` has `dates` aligned with `cityIds`
(both length 2) and references `"c1"` at position 0; after
`deleteCity "c1"` the trip keeps both date entries, so the date at the
removed position is not dropped and the result differs from the trimmed
trip the claim predicts. -/
theorem deleteCity_dates_counterexample :
    (deleteCity sampleState "c1" 1).trips =
      [{ sampleTrip with cityIds := ["c2"] }] ∧
    ({ sampleTrip with cityIds := ["c2"] } : Trip).dates =
      some ["d1", "d2"] ∧
    (deleteCity sampleState "c1" 1).trips ≠
      [{ sampleTrip with cityIds := ["c2"], dates := some ["d2"] }] := by
  refine ⟨by decide, rfl, by decide⟩

/-- C8 amended: `deleteCity` filters the deleted id out of every trip's
`cityIds` but leaves the trip's `dates` sequence exactly as it was, so
positional alignment with the shortened `cityIds` is not maintained. -/
theorem deleteCity_leaves_dates_unchanged (s : TravelState) (id : String)
    (now : ℕ) (i : ℕ) (t t' : Trip)
    (ht : s.trips[i]? = some t)
    (ht' : (deleteCity s id now).trips[i]? = some t') :
    t'.dates = t.dates ∧
    t'.cityIds = t.cityIds.filter (fun cid => cid ≠ id) := by
  have hmap : (deleteCity s id now).trips = s.trips.map (fun trip =>
      { trip with cityIds := trip.cityIds.filter (fun cityId => cityId ≠ id) }) :=
    rfl
  rw [hmap, List.getElem?_map, ht] at ht'
  have h2 : ({ t with cityIds := t.cityIds.filter (fun cid => cid ≠ id) } :
      Trip) = t' := Option.some.inj ht'
  rw [← h2]
  exact ⟨rfl, rfl⟩

/-- Witness for the amended C8 at a concrete trip. -/
theorem deleteCity_leaves_dates_unchanged_witness :
    ({ sampleTrip with cityIds := ["c2"] } : Trip).dates = sampleTrip.dates ∧
    ({ sampleTrip with cityIds := ["c2"] } : Trip).cityIds =
      sampleTrip.cityIds.filter (fun cid => cid ≠ "c1") :=
  deleteCity_leaves_dates_unchanged sampleState "c1" 1 0 sampleTrip
    { sampleTrip with cityIds := ["c2"] } (by decide) (by decide)

/-- C7: when the parsed document is an object whose `cities` (resp.
`trips`) field is missing or not an array, the `importFromJson` →
`importData` pipeline (Header.tsx feeds one into the other) lands the
store on an empty cities (resp. trips) collection. -/
theorem importFromJson_substitutes_empty (s : TravelState)
    (d : ImportPayload) (now : ℕ) (p : ImportPayload)
    (hp : importFromJson (ImportJson.obj d) = Except.ok p) :
    ((d.cities = JsonField.missing ∨ d.cities = JsonField.notArray) →
      (importData s p now).cities = []) ∧
    ((d.trips = JsonField.missing ∨ d.trips = JsonField.notArray) →
      (importData s p now).trips = []) := by
  simp only [importFromJson, Except.ok.injEq] at hp
  subst hp
  constructor
  · rintro (h | h) <;> simp [importData, h]
  · rintro (h | h) <;> simp [importData, h]

/-- Witness for C7: the malformed payload yields empty collections. -/
theorem importFromJson_substitutes_empty_witness :
    (importData sampleState
      { cities := JsonField.arr [], trips := JsonField.arr [],
        preferences := some {} } 9).cities = [] ∧
    (importData sampleState
      { cities := JsonField.arr [], trips := JsonField.arr [],
        preferences := some {} } 9).trips = [] :=
  ⟨(importFromJson_substitutes_empty sampleState malformedPayload 9 _ rfl).1
      (Or.inl rfl),
   (importFromJson_substitutes_empty sampleState malformedPayload 9 _ rfl).2
      (Or.inr rfl)⟩

/-- C1: if some existing city is within the 0.01-degree tolerance of the
candidate in both coordinates, `addCity` throws a `DuplicateCityError`
carrying the id of a conflicting existing city (the first match in
stored order) and the store state is exactly what it was: no city is
inserted and no snapshot is committed. -/
theorem addCity_duplicate_rejected (s : TravelState) (b : City) (now : ℕ)
    (hdup : ∃ a ∈ s.cities,
      ratAbs (a.coordinates.1 - b.coordinates.1) < 1/100 ∧
      ratAbs (a.coordinates.2 - b.coordinates.2) < 1/100) :
    ∃ e : DuplicateCityError,
      addCity s b now = Except.error e ∧
      (∃ a ∈ s.cities,
        (ratAbs (a.coordinates.1 - b.coordinates.1) < 1/100 ∧
         ratAbs (a.coordinates.2 - b.coordinates.2) < 1/100) ∧
        e.duplicateCityId = a.id) ∧
      applyCmd (Cmd.addCity b now) s = s := by
  obtain ⟨a, ha, h1, h2⟩ := hdup
  have hpa : isDuplicateOf a b = true := by
    simp only [isDuplicateOf, Bool.and_eq_true, decide_eq_true_eq]
    exact ⟨h1, h2⟩
  cases hfind : s.cities.find? (fun c => isDuplicateOf c b) with
  | none =>
      exact absurd hpa (by simpa using List.find?_eq_none.mp hfind a ha)
  | some dup =>
      have hdupmem : dup ∈ s.cities := List.mem_of_find?_eq_some hfind
      have hdupp0 := List.find?_some hfind
      have hdupp : isDuplicateOf dup b = true := by simpa using hdupp0
      have herr : addCity s b now = Except.error
          { message := "\"" ++ b.name ++ "\" is already in your list as \"" ++
              dup.name ++ "\""
            duplicateCityId := dup.id } := by
        unfold addCity
        rw [hfind]
      refine ⟨_, herr, ⟨dup, hdupmem, ?_, rfl⟩, ?_⟩
      · simpa only [isDuplicateOf, Bool.and_eq_true, decide_eq_true_eq]
          using hdupp
      · have herr' : applyCmdE (Cmd.addCity b now) s = Except.error
            { message := "\"" ++ b.name ++ "\" is already in your list as \"" ++
                dup.name ++ "\""
              duplicateCityId := dup.id } := herr
        unfold applyCmd
        rw [herr']

/-- Witness for C1: adding NearTokyo after Tokyo is rejected. -/
theorem addCity_duplicate_rejected_witness :
    ∃ e : DuplicateCityError,
      addCity tokyoState nearTokyoCity 1 = Except.error e ∧
      (∃ a ∈ tokyoState.cities,
        (ratAbs (a.coordinates.1 - nearTokyoCity.coordinates.1) < 1/100 ∧
         ratAbs (a.coordinates.2 - nearTokyoCity.coordinates.2) < 1/100) ∧
        e.duplicateCityId = a.id) ∧
      applyCmd (Cmd.addCity nearTokyoCity 1) tokyoState = tokyoState :=
  addCity_duplicate_rejected tokyoState nearTokyoCity 1
    ⟨tokyoCity, by simp [tokyoState],
      by
        show ratAbs ((356762/10000 : ℚ) - 3568/100) < 1/100
        unfold ratAbs
        rw [if_pos (by norm_num)]
        norm_num,
      by
        show ratAbs ((1396503/10000 : ℚ) - 139655/1000) < 1/100
        unfold ratAbs
        rw [if_pos (by norm_num)]
        norm_num⟩

/-- C5: whenever redo is possible (the cursor sits strictly below the
last snapshot), any successful mutating command truncates the redo
branch — the new history is the old prefix up to the cursor plus the
fresh snapshot (possibly with the oldest entry evicted) — and `canRedo`
is false immediately afterwards. -/
theorem mutation_truncates_redo_branch (s s' : TravelState) (m : Cmd)
    (hm : m.isMutating = true)
    (hredo : canRedo s = true)
    (hok : applyCmdE m s = Except.ok s') :
    canRedo s' = false ∧
    ∃ σ, s'.history = s.history.take (s.historyIndex + 1) ++ [σ] ∨
      s'.history = (s.history.take (s.historyIndex + 1) ++ [σ]).drop 1 := by
  have hlt : s.historyIndex < s.history.length := by
    have := of_decide_eq_true hredo
    omega
  obtain ⟨ct, tt, n, rfl⟩ := applyCmdE_mut_commit m s s' hm hok
  have hcur := commitState_cursor s ct tt n hlt
  constructor
  · simp only [canRedo, decide_eq_false_iff_not]
    omega
  · refine ⟨createHistorySnapshot ct tt n, ?_⟩
    by_cases hc : s.historyIndex + 2 ≤ s.maxHistorySize
    · left
      rw [commitState, addToHistory_no_evict s ct tt n hlt hc]
    · right
      rw [commitState, addToHistory_evict s ct tt n hlt (by omega)]
      rw [List.drop_append_of_le_length]
      rw [length_take_succ s hlt]
      omega

/-- Witness for C5: committing `addTrip` from the redoable state kills
the redo branch. -/
theorem mutation_truncates_redo_branch_witness :
    canRedo (addTrip redoableState sampleTrip 4) = false ∧
    ∃ σ, (addTrip redoableState sampleTrip 4).history =
        redoableState.history.take (redoableState.historyIndex + 1) ++ [σ] ∨
      (addTrip redoableState sampleTrip 4).history =
        (redoableState.history.take (redoableState.historyIndex + 1) ++
          [σ]).drop 1 :=
  mutation_truncates_redo_branch redoableState
    (addTrip redoableState sampleTrip 4) (Cmd.addTrip sampleTrip 4)
    rfl (by decide) rfl

lemma reachable_iterate (c : Cmd) (n : ℕ) {s : TravelState}
    (h : Reachable s) : Reachable ((applyCmd c)^[n] s) := by
  induction n with
  | zero =>
      rw [Function.iterate_zero_apply]
      exact h
  | succ n ih =>
      rw [Function.iterate_succ_apply']
      exact Reachable.step c ih

/-- C4: every reachable state's history holds at most 50 snapshots, and
whenever a commit would push past `maxHistorySize`, `addToHistory`
drops exactly the oldest snapshot of the pushed sequence, keeps at
least one entry, and leaves the cursor on the newly appended (last)
snapshot, never below zero. -/
theorem history_cap_and_eviction (s : TravelState) (cities : List City)
    (trips : List Trip) (now : ℕ) (h : Reachable s) :
    s.history.length ≤ 50 ∧
    ((s.history.take (s.historyIndex + 1) ++
        [createHistorySnapshot cities trips now]).length > s.maxHistorySize →
      (addToHistory s cities trips now).history =
        (s.history.take (s.historyIndex + 1) ++
          [createHistorySnapshot cities trips now]).drop 1 ∧
      1 ≤ (addToHistory s cities trips now).history.length ∧
      (addToHistory s cities trips now).historyIndex =
        (addToHistory s cities trips now).history.length - 1 ∧
      (addToHistory s cities trips now).history.getLast? =
        some (createHistorySnapshot cities trips now)) := by
  obtain ⟨hlt, hlen, hmax, _⟩ := reachable_storeInv h
  refine ⟨by omega, ?_⟩
  intro hover
  have htake : (s.history.take (s.historyIndex + 1)).length =
      s.historyIndex + 1 := length_take_succ s hlt
  have hover' : s.maxHistorySize < s.historyIndex + 2 := by
    rw [List.length_append, htake] at hover
    simpa using hover
  have hev := addToHistory_evict s cities trips now hlt hover'
  rw [hev]
  have hsplit : (s.history.take (s.historyIndex + 1) ++
        [createHistorySnapshot cities trips now]).drop 1 =
      (s.history.take (s.historyIndex + 1)).drop 1 ++
        [createHistorySnapshot cities trips now] :=
    List.drop_append_of_le_length (by omega)
  refine ⟨hsplit.symm, by simp, ?_, by simp⟩
  show s.historyIndex = ((s.history.take (s.historyIndex + 1)).drop 1 ++
      [createHistorySnapshot cities trips now]).length - 1
  rw [List.length_append, List.length_drop, htake]
  simp

set_option maxRecDepth 100000 in
/-- Witness for C4 at the full-history state, with the overflow branch
actually exercised. -/
theorem history_cap_and_eviction_witness :
    fullHistoryState.history.length ≤ 50 ∧
    ((addToHistory fullHistoryState [] [] 99).history =
        (fullHistoryState.history.take (fullHistoryState.historyIndex + 1) ++
          [createHistorySnapshot [] [] 99]).drop 1 ∧
      1 ≤ (addToHistory fullHistoryState [] [] 99).history.length ∧
      (addToHistory fullHistoryState [] [] 99).historyIndex =
        (addToHistory fullHistoryState [] [] 99).history.length - 1 ∧
      (addToHistory fullHistoryState [] [] 99).history.getLast? =
        some (createHistorySnapshot [] [] 99)) :=
  ⟨(history_cap_and_eviction fullHistoryState [] [] 99
      (reachable_iterate (Cmd.addTrip sampleTrip 7) 49 (Reachable.init 0))).1,
   (history_cap_and_eviction fullHistoryState [] [] 99
      (reachable_iterate (Cmd.addTrip sampleTrip 7) 49 (Reachable.init 0))).2
     (by decide)⟩

set_option maxRecDepth 400000 in
/-- C3 counterexample: 50 successful mutating commands from the initial
state overflow the snapshot cap, evicting the pre-sequence snapshot, so
50 `undo` calls do not restore the pre-sequence `trips` value (they
stop at the state after the first command). -/
theorem undo_inverse_cap_counterexample :
    applyCmdList (List.replicate 50 (Cmd.addTrip sampleTrip 0))
      (initialState 0) = Except.ok fiftyTripsState ∧
    (List.replicate 50 (Cmd.addTrip sampleTrip 0)).all Cmd.isMutating = true ∧
    (undo^[50] fiftyTripsState).trips ≠ (initialState 0).trips := by
  refine ⟨rfl, by decide, by decide⟩

/-- C3 amended: provided the cursor snapshot matches the live
collections (true in every reachable state) and the committed sequence
is short enough that the 50-snapshot cap never evicts
(`historyIndex + 1 + n ≤ maxHistorySize`), running `undo` n times after
n successful mutating commands restores the pre-sequence
`cities`/`trips`, and running `redo` n times after that restores the
post-sequence collections. -/
theorem undo_redo_inverse_of_no_evict (s s' : TravelState) (cs : List Cmd)
    (hmut : ∀ c ∈ cs, c.isMutating = true)
    (hwf : s.historyIndex < s.history.length)
    (hlive : pointsAtLive s)
    (hcap : s.historyIndex + 1 + cs.length ≤ s.maxHistorySize)
    (hok : applyCmdList cs s = Except.ok s') :
    (undo^[cs.length] s').cities = s.cities ∧
    (undo^[cs.length] s').trips = s.trips ∧
    (redo^[cs.length] (undo^[cs.length] s')).cities = s'.cities ∧
    (redo^[cs.length] (undo^[cs.length] s')).trips = s'.trips := by
  obtain ⟨hidx', hlt', hlive', hmax', hpre⟩ :=
    applyCmdList_commits cs s s' hmut hwf hlive hcap hok
  have hn : cs.length ≤ s'.historyIndex := by omega
  obtain ⟨u1, u2, u3, u4, σ, hσ, hc, ht⟩ :=
    undo_iter cs.length s' hlt' hlive' hn
  have hpos : s'.historyIndex - cs.length = s.historyIndex := by omega
  rw [hpos] at hσ
  have hσs : s'.history[s.historyIndex]? = s.history[s.historyIndex]? :=
    hpre s.historyIndex le_rfl
  obtain ⟨σ₀, hσ₀, hc₀, ht₀⟩ := hlive
  rw [hσs, hσ₀] at hσ
  have hσeq : σ = σ₀ := (Option.some.inj hσ).symm
  subst hσeq
  have huidx : (undo^[cs.length] s').historyIndex = s.historyIndex := by
    rw [u2, hpos]
  have hulive : pointsAtLive (undo^[cs.length] s') := by
    refine ⟨σ, ?_, hc.symm, ht.symm⟩
    rw [u1, huidx, hσs]
    exact hσ₀
  have hrlt : (undo^[cs.length] s').historyIndex + cs.length <
      (undo^[cs.length] s').history.length := by
    rw [huidx, u1]
    omega
  obtain ⟨r1, r2, r3, r4, τ, hτ, rc, rt⟩ :=
    redo_iter cs.length (undo^[cs.length] s') hrlt hulive
  obtain ⟨σ', hσ', hc', ht'⟩ := hlive'
  have hposr : (undo^[cs.length] s').historyIndex + cs.length =
      s'.historyIndex := by
    rw [huidx]
    omega
  rw [u1, hposr, hσ'] at hτ
  have hτeq : τ = σ' := (Option.some.inj hτ).symm
  subst hτeq
  refine ⟨?_, ?_, ?_, ?_⟩
  · rw [hc, hc₀]
  · rw [ht, ht₀]
  · rw [rc, hc']
  · rw [rt, ht']

/-- Witness for the amended C3 with a two-command sequence. -/
theorem undo_redo_inverse_of_no_evict_witness :
    (undo^[2] twoCmdState).cities = (initialState 0).cities ∧
    (undo^[2] twoCmdState).trips = (initialState 0).trips ∧
    (redo^[2] (undo^[2] twoCmdState)).cities = twoCmdState.cities ∧
    (redo^[2] (undo^[2] twoCmdState)).trips = twoCmdState.trips :=
  undo_redo_inverse_of_no_evict (initialState 0) twoCmdState
    [Cmd.addTrip sampleTrip 1, Cmd.deleteTrip "t1" 2]
    (by decide) (by decide)
    ⟨createHistorySnapshot [] [] 0, rfl, rfl, rfl⟩
    (by decide) rfl
